import Mathlib

/-! Shallow embedding of the spurilo track-statistics pipeline
(src/lib.rs and crates/spurilo/src/lib.rs). Rust f64 values are modelled
as rationals, Rust strings as lists of characters where character-level
operations matter, and the reverse-geocoding network collaborator as an
oracle indexed by the attempt number. The two historical revisions differ
only in the elevation-threshold constant (3.0 vs 30.0) and in the choice
of simplification routine from the external geo crate; the thresholds are
parameters here, instantiated per revision, and the simplifier is modelled
from the spec (the geo crate is not part of this repository). Panics are
modelled by an Option codomain, with none standing for a panic. -/

namespace Spurilo

/-- A GPX waypoint: position, optional elevation in meters, optional
timestamp. -/
structure Waypoint where
  lat : ℚ
  lon : ℚ
  elevation : Option ℚ
  time : Option ℤ
  deriving DecidableEq

/-- A track segment: an ordered list of waypoints. -/
structure Segment where
  points : List Waypoint
  deriving DecidableEq

/-- A track: optional metadata plus ordered segments. -/
structure Track where
  name : Option String
  description : Option String
  segments : List Segment
  deriving DecidableEq

/-- File-level GPX metadata. -/
structure Metadata where
  name : Option String
  description : Option String
  deriving DecidableEq

/-- A parsed GPX document, as handed over by the gpx crate. -/
structure Gpx where
  metadata : Option Metadata
  tracks : List Track
  deriving DecidableEq

/-- A 2-D point of the elevation profile: x is cumulative distance,
y is elevation (geo::Coordinate in the source). -/
structure Coordinate where
  x : ℚ
  y : ℚ
  deriving DecidableEq

/-- The GpxInfo result record of the source. -/
structure GpxInfo where
  name : Option String
  description : Option String
  datetime : Option ℤ
  location : Option (List Char)
  distance : ℚ
  uphill : ℚ
  downhill : ℚ
  deriving DecidableEq

/-- GpxInfo::new(). -/
def GpxInfo.new : GpxInfo :=
  { name := none, description := none, datetime := none, location := none,
    distance := 0, uphill := 0, downhill := 0 }

/-- One feature of the photon reverse-geocoding response: the four optional
string properties read by the source. -/
structure GeoProps where
  name : Option (List Char)
  street : Option (List Char)
  city : Option (List Char)
  country : Option (List Char)
  deriving DecidableEq

/-- Result of one reverse-geocoding request: none models a failed request
or a body that is not a FeatureCollection, some fs a FeatureCollection
whose features carry optional properties. -/
abbrev GeoResp := Option (List (Option GeoProps))

/-- A lowercase hexadecimal digit, as serde_json writes unicode escapes. -/
def hexDigit (n : Nat) : Char :=
  if n < 10 then Char.ofNat (48 + n) else Char.ofNat (87 + n)

/-- The JSON string escaping of the serde_json compact formatter: the
double quote and the backslash get a backslash, the control characters
0x08, 0x09, 0x0a, 0x0c, 0x0d their short escapes, every other character
below 0x20 a lowercase unicode escape, and every other character stands
for itself. -/
def jsonEscapeChar (c : Char) : List Char :=
  if c = '"' then ['\\', '"']
  else if c = '\\' then ['\\', '\\']
  else if c.toNat = 8 then ['\\', 'b']
  else if c.toNat = 9 then ['\\', 't']
  else if c.toNat = 10 then ['\\', 'n']
  else if c.toNat = 12 then ['\\', 'f']
  else if c.toNat = 13 then ['\\', 'r']
  else if c.toNat < 32 then
    ['\\', 'u', '0', '0', hexDigit (c.toNat / 16), hexDigit (c.toNat % 16)]
  else [c]

/-- serde_json renders a JSON string value with surrounding double quotes
and its content JSON-escaped; the source substitutes the JSON string value
made from the empty string for an absent field. -/
def jsonShow (v : Option (List Char)) : List Char :=
  ('"' :: (v.getD []).bind jsonEscapeChar) ++ ['"']

/-- Rust str::trim: drop Unicode whitespace from both ends. -/
def rustTrim (s : List Char) : List Char :=
  ((s.dropWhile Char.isWhitespace).reverse.dropWhile Char.isWhitespace).reverse

/-- The location formatting of the source: render the four JSON values,
join them with a comma and a space, trim surrounding whitespace, then
delete every double-quote character (str::replace with an empty
replacement). -/
def formatLocation (p : GeoProps) : List Char :=
  (rustTrim (jsonShow p.name ++ (", ".toList) ++ jsonShow p.street ++ (", ".toList)
      ++ jsonShow p.city ++ (", ".toList) ++ jsonShow p.country)).filter
    (fun ch => ch ≠ '"')

/-- Effect of one lookup attempt on info.location: each feature that
carries properties overwrites the location with its formatted string;
a failed request leaves it unchanged. -/
def applyResp (loc : Option (List Char)) (resp : GeoResp) : Option (List Char) :=
  match resp with
  | none => loc
  | some features =>
      features.foldl
        (fun l f =>
          match f with
          | some props => some (formatLocation props)
          | none => l)
        loc

/-- State threaded through the per-segment waypoint loop: the running
GpxInfo, the elevation profile built so far, and the current
previous_waypoint. -/
structure SegState where
  info : GpxInfo
  shape : List Coordinate
  prev : Waypoint
  deriving DecidableEq

/-- The threshold condition of the source: the geodesic distance exceeds
the distance threshold, or the elevation delta is known and its signed
value exceeds the elevation threshold. -/
def keepWaypoint (gdist : Waypoint → Waypoint → ℚ) (dTh eTh : ℚ)
    (p c : Waypoint) : Bool :=
  let elevationDiff : Option ℚ :=
    match p.elevation, c.elevation with
    | some pe, some ce => some (ce - pe)
    | _, _ => none
  decide (gdist p c > dTh) ||
    (match elevationDiff with
     | some d => decide (d > eTh)
     | none => false)

/-- Body of the for current_waypoint loop of the source. The profile push
happens before the threshold test, so every candidate with a known
elevation is sampled whether it is kept or dropped. -/
def waypointStep (gdist : Waypoint → Waypoint → ℚ) (dTh eTh : ℚ)
    (st : SegState) (cur : Waypoint) : SegState :=
  let geodesicDistance := gdist st.prev cur
  let shape :=
    match cur.elevation with
    | some e => st.shape ++ [⟨st.info.distance, e⟩]
    | none => st.shape
  if keepWaypoint gdist dTh eTh st.prev cur then
    let info1 := { st.info with distance := st.info.distance + geodesicDistance }
    let info2 :=
      match st.prev.elevation, cur.elevation with
      | some pe, some ce =>
          let diff := ce - pe
          if diff ≥ 0 then { info1 with uphill := info1.uphill + diff }
          else { info1 with downhill := info1.downhill - diff }
      | _, _ => info1
    { info := info2, shape := shape, prev := cur }
  else
    { st with shape := shape }

/-- Specification of the raw profile a segment scan emits, stated from the
amended claim C3: each candidate waypoint with a known elevation
contributes one sample at (cumulative distance so far, its elevation),
pushed before the threshold decision; the cumulative distance and the
previous waypoint advance only when the candidate is kept. To be compared
with the shape component of the waypoint fold. -/
def profileSpec (gdist : Waypoint → Waypoint → ℚ) (dTh eTh : ℚ) :
    Waypoint → ℚ → List Waypoint → List Coordinate
  | _, _, [] => []
  | p, dist, c :: cs =>
      let sample : List Coordinate :=
        match c.elevation with
        | some e => [⟨dist, e⟩]
        | none => []
      if keepWaypoint gdist dTh eTh p c then
        sample ++ profileSpec gdist dTh eTh c (dist + gdist p c) cs
      else
        sample ++ profileSpec gdist dTh eTh p dist cs

/-- Run state across segments: the info and profile plus the number of
geocoding lookup attempts made so far (the oracle position). -/
structure RunState where
  info : GpxInfo
  shape : List Coordinate
  attempts : Nat
  deriving DecidableEq

/-- The enrichment at the head of each segment: the datetime assignment
from the first waypoint while datetime is unset, and the single lookup
attempt while location is unset. Returns the updated info and the updated
attempt count. -/
def segmentHead (orc : Nat → GeoResp) (st : RunState) (p0 : Waypoint) :
    GpxInfo × Nat :=
  let info1 :=
    if st.info.datetime.isNone then { st.info with datetime := p0.time }
    else st.info
  let lookup := info1.location.isNone
  let info2 :=
    if lookup then
      { info1 with location := applyResp info1.location (orc st.attempts) }
    else info1
  let attempts := if lookup then st.attempts + 1 else st.attempts
  (info2, attempts)

/-- One iteration of the for segment loop. none models the panic of
waypoints_iter.next().unwrap() on an empty segment. -/
def processSegment (gdist : Waypoint → Waypoint → ℚ) (dTh eTh : ℚ)
    (orc : Nat → GeoResp) (st : RunState) (seg : Segment) : Option RunState :=
  match seg.points with
  | [] => none
  | p0 :: rest =>
      let head := segmentHead orc st p0
      let final := List.foldl (waypointStep gdist dTh eTh)
        { info := head.1, shape := st.shape, prev := p0 } rest
      some { info := final.info, shape := final.shape, attempts := head.2 }

/-- The for segment in track.segments loop. -/
def processSegments (gdist : Waypoint → Waypoint → ℚ) (dTh eTh : ℚ)
    (orc : Nat → GeoResp) : RunState → List Segment → Option RunState
  | st, [] => some st
  | st, seg :: rest =>
      match processSegment gdist dTh eTh orc st seg with
      | none => none
      | some st2 => processSegments gdist dTh eTh orc st2 rest

/-- The for track in gpx.tracks loop. -/
def processTracks (gdist : Waypoint → Waypoint → ℚ) (dTh eTh : ℚ)
    (orc : Nat → GeoResp) : RunState → List Track → Option RunState
  | st, [] => some st
  | st, t :: rest =>
      match processSegments gdist dTh eTh orc st t.segments with
      | none => none
      | some st2 => processTracks gdist dTh eTh orc st2 rest

/-- Area of the triangle spanned by three profile points. -/
def triArea (a b c : Coordinate) : ℚ :=
  |(b.x - a.x) * (c.y - a.y) - (c.x - a.x) * (b.y - a.y)| / 2

/-- The (index, triangle area) pairs over the interior points of a
profile. -/
def interiorAreas (l : List Coordinate) : List (Nat × ℚ) :=
  (List.range l.length).filterMap fun i =>
    if 1 ≤ i ∧ i + 1 < l.length then
      some (i, triArea (l.getD (i - 1) ⟨0, 0⟩) (l.getD i ⟨0, 0⟩)
        (l.getD (i + 1) ⟨0, 0⟩))
    else none

/-- First entry achieving the minimum area (strict comparison keeps the
earlier entry on ties). -/
def argminArea : List (Nat × ℚ) → Option (Nat × ℚ)
  | [] => none
  | x :: xs => some (xs.foldl (fun best y => if y.2 < best.2 then y else best) x)

theorem argmin_aux_mem (x : Nat × ℚ) (xs : List (Nat × ℚ)) :
    xs.foldl (fun best y => if y.2 < best.2 then y else best) x = x ∨
      xs.foldl (fun best y => if y.2 < best.2 then y else best) x ∈ xs := by
  induction xs generalizing x with
  | nil => exact Or.inl rfl
  | cons y ys ih =>
      simp only [List.foldl_cons]
      rcases ih (if y.2 < x.2 then y else x) with h | h
      · rw [h]
        by_cases hy : y.2 < x.2
        · simp [hy]
        · simp [hy]
      · exact Or.inr (List.mem_cons_of_mem _ h)

theorem argminArea_mem {xs : List (Nat × ℚ)} {ia : Nat × ℚ}
    (h : argminArea xs = some ia) : ia ∈ xs := by
  cases xs with
  | nil => simp [argminArea] at h
  | cons x ys =>
      simp only [argminArea, Option.some.injEq] at h
      rcases argmin_aux_mem x ys with h2 | h2
      · rw [← h, h2]; exact List.mem_cons_self _ _
      · rw [← h]; exact List.mem_cons_of_mem _ h2

theorem interiorAreas_bound {l : List Coordinate} {ia : Nat × ℚ}
    (h : ia ∈ interiorAreas l) : 1 ≤ ia.1 ∧ ia.1 + 1 < l.length := by
  simp only [interiorAreas, List.mem_filterMap, List.mem_range] at h
  obtain ⟨i, _, hfi⟩ := h
  by_cases hc : 1 ≤ i ∧ i + 1 < l.length
  · rw [if_pos hc] at hfi
    cases hfi
    exact hc
  · rw [if_neg hc] at hfi
    cases hfi

/-- Modelled from the spec: the Profile Simplifier of section 4.4. The
source delegates simplification to the external geo crate (simplify and
simplifyvw), whose implementation is not code of this repository, so the
area-based point-elimination algorithm is modelled from the words of the
spec: repeatedly remove the interior point whose triangle with its
immediate neighbours has the smallest area, until the minimum remaining
area exceeds epsilon; the first and last points are never candidates. -/
def vwSimplify (eps : ℚ) (l : List Coordinate) : List Coordinate :=
  if l.length < 3 then l
  else
    match h : argminArea (interiorAreas l) with
    | none => l
    | some ia =>
        if eps < ia.2 then l
        else vwSimplify eps (l.eraseIdx ia.1)
termination_by l.length
decreasing_by
  have hb := interiorAreas_bound (argminArea_mem h)
  rw [List.length_eraseIdx_of_lt (by omega)]
  omega

/-- One step of the simplified-profile uphill/downhill recomputation loop
(the running pair of totals plus the previous point). -/
def simplStep (acc : ℚ × ℚ × Coordinate) (cur : Coordinate) : ℚ × ℚ × Coordinate :=
  let diff := cur.y - acc.2.2.y
  if diff ≥ 0 then (acc.1 + diff, acc.2.1, cur) else (acc.1, acc.2.1 - diff, cur)

/-- The simplified-profile uphill/downhill recomputation of the source:
none models the panic of simplifier_iter.next().unwrap() on an empty
profile. -/
def simplStats (l : List Coordinate) : Option (ℚ × ℚ) :=
  match l with
  | [] => none
  | c0 :: cs =>
      let r := cs.foldl simplStep (0, 0, c0)
      some (r.1, r.2.1)

/-- The metadata initialisation at the top of open: file-level metadata
first, then the first track fills any still-empty name or description. -/
def initInfo (g : Gpx) (t0 : Track) : GpxInfo :=
  let info0 := GpxInfo.new
  let info1 :=
    match g.metadata with
    | some m => { info0 with name := m.name, description := m.description }
    | none => info0
  let info2 := if info1.name.isNone then { info1 with name := t0.name } else info1
  if info2.description.isNone then { info2 with description := t0.description }
  else info2

/-- The whole of open, parameterised over the geodesic distance function,
the two thresholds, the simplification epsilon and the geocoding oracle;
the file reading and GPX parsing upstream of this model are unwraps on the
caller side of the embedding. none models a panic; some (Except.ok info)
is the single Ok(info) return; no Except.error value is ever built,
mirroring the absence of any Err return in the function body. -/
def openGpx (gdist : Waypoint → Waypoint → ℚ) (dTh eTh eps : ℚ)
    (orc : Nat → GeoResp) (g : Gpx) : Option (Except String GpxInfo) :=
  match g.tracks with
  | [] => none
  | t0 :: _ =>
      match processTracks gdist dTh eTh orc
          { info := initInfo g t0, shape := [], attempts := 0 } g.tracks with
      | none => none
      | some st =>
          match simplStats (vwSimplify eps st.shape) with
          | none => none
          | some _ => some (Except.ok st.info)

/-- The timestamp of the first waypoint of a segment, if any. -/
def headTime (s : Segment) : Option ℤ :=
  match s.points with
  | [] => none
  | p :: _ => p.time

/-- The first non-null timestamp among the initial waypoints of the
segments, in order. -/
def firstSegmentTime : List Segment → Option ℤ
  | [] => none
  | s :: rest => (headTime s).or (firstSegmentTime rest)

/-! Helper lemmas about the waypoint loop step. -/

theorem keepWaypoint_iff (gd : Waypoint → Waypoint → ℚ) (dTh eTh : ℚ)
    (p c : Waypoint) :
    keepWaypoint gd dTh eTh p c = true ↔
      dTh < gd p c ∨ ∃ pe ce, p.elevation = some pe ∧ c.elevation = some ce ∧
        eTh < ce - pe := by
  unfold keepWaypoint
  rcases hp : p.elevation with _ | pe <;> rcases hc : c.elevation with _ | ce <;>
    simp [hp, hc, gt_iff_lt]

theorem waypointStep_of_keep (gd : Waypoint → Waypoint → ℚ) (dTh eTh : ℚ)
    (st : SegState) (cur : Waypoint)
    (h : keepWaypoint gd dTh eTh st.prev cur = true) :
    (waypointStep gd dTh eTh st cur).prev = cur ∧
      (waypointStep gd dTh eTh st cur).info.distance =
        st.info.distance + gd st.prev cur := by
  unfold waypointStep
  rw [if_pos h]
  refine ⟨rfl, ?_⟩
  rcases hp : st.prev.elevation with _ | pe <;> rcases hc : cur.elevation with _ | ce <;>
    simp [hp, hc]
  split <;> rfl

theorem waypointStep_of_drop (gd : Waypoint → Waypoint → ℚ) (dTh eTh : ℚ)
    (st : SegState) (cur : Waypoint)
    (h : keepWaypoint gd dTh eTh st.prev cur = false) :
    waypointStep gd dTh eTh st cur =
      { info := st.info,
        shape := match cur.elevation with
          | some e => st.shape ++ [⟨st.info.distance, e⟩]
          | none => st.shape,
        prev := st.prev } := by
  unfold waypointStep
  rw [if_neg (by simp [h])]

theorem waypointStep_eq_keep (gd : Waypoint → Waypoint → ℚ) (dTh eTh : ℚ)
    (st : SegState) (cur : Waypoint)
    (h : keepWaypoint gd dTh eTh st.prev cur = true) :
    waypointStep gd dTh eTh st cur =
      { info :=
          (match st.prev.elevation, cur.elevation with
           | some pe, some ce =>
               if ce - pe ≥ 0 then
                 { st.info with
                   distance := st.info.distance + gd st.prev cur
                   uphill := st.info.uphill + (ce - pe) }
               else
                 { st.info with
                   distance := st.info.distance + gd st.prev cur
                   downhill := st.info.downhill - (ce - pe) }
           | _, _ => { st.info with distance := st.info.distance + gd st.prev cur }),
        shape :=
          (match cur.elevation with
           | some e => st.shape ++ [⟨st.info.distance, e⟩]
           | none => st.shape),
        prev := cur } := by
  unfold waypointStep
  rw [if_pos h]

theorem waypointStep_meta (gd : Waypoint → Waypoint → ℚ) (dTh eTh : ℚ)
    (st : SegState) (cur : Waypoint) :
    (waypointStep gd dTh eTh st cur).info.name = st.info.name ∧
      (waypointStep gd dTh eTh st cur).info.description = st.info.description ∧
      (waypointStep gd dTh eTh st cur).info.datetime = st.info.datetime ∧
      (waypointStep gd dTh eTh st cur).info.location = st.info.location := by
  unfold waypointStep
  rcases hp : st.prev.elevation with _ | pe <;> rcases hc : cur.elevation with _ | ce <;>
    simp only [hp, hc] <;> split <;> (try split) <;> exact ⟨rfl, rfl, rfl, rfl⟩

theorem waypointStep_shape (gd : Waypoint → Waypoint → ℚ) (dTh eTh : ℚ)
    (st : SegState) (cur : Waypoint) :
    (waypointStep gd dTh eTh st cur).shape =
      st.shape ++ (match cur.elevation with
        | some e => [(⟨st.info.distance, e⟩ : Coordinate)]
        | none => []) := by
  unfold waypointStep
  rcases hc : cur.elevation with _ | e <;> simp only [hc] <;> split <;> simp

theorem waypointStep_nonneg (gd : Waypoint → Waypoint → ℚ) (dTh eTh : ℚ)
    (st : SegState) (cur : Waypoint)
    (hu : 0 ≤ st.info.uphill) (hd : 0 ≤ st.info.downhill) :
    0 ≤ (waypointStep gd dTh eTh st cur).info.uphill ∧
      0 ≤ (waypointStep gd dTh eTh st cur).info.downhill := by
  unfold waypointStep
  rcases hp : st.prev.elevation with _ | pe <;> rcases hc : cur.elevation with _ | ce <;>
    simp only [hp, hc] <;> split
  all_goals try exact ⟨hu, hd⟩
  split
  · rename_i hdiff
    exact ⟨show (0 : ℚ) ≤ st.info.uphill + (ce - pe) by linarith, hd⟩
  · rename_i hdiff
    have hlt := lt_of_not_ge hdiff
    exact ⟨hu, show (0 : ℚ) ≤ st.info.downhill - (ce - pe) by linarith⟩

/-! Lemmas about the per-segment fold over candidate waypoints. -/

theorem segFold_meta (gd : Waypoint → Waypoint → ℚ) (dTh eTh : ℚ)
    (cands : List Waypoint) (st : SegState) :
    (List.foldl (waypointStep gd dTh eTh) st cands).info.name = st.info.name ∧
      (List.foldl (waypointStep gd dTh eTh) st cands).info.description =
        st.info.description ∧
      (List.foldl (waypointStep gd dTh eTh) st cands).info.datetime =
        st.info.datetime ∧
      (List.foldl (waypointStep gd dTh eTh) st cands).info.location =
        st.info.location := by
  induction cands generalizing st with
  | nil => exact ⟨rfl, rfl, rfl, rfl⟩
  | cons c cs ih =>
      simp only [List.foldl_cons]
      obtain ⟨h1, h2, h3, h4⟩ := waypointStep_meta gd dTh eTh st c
      obtain ⟨g1, g2, g3, g4⟩ := ih (waypointStep gd dTh eTh st c)
      exact ⟨g1.trans h1, g2.trans h2, g3.trans h3, g4.trans h4⟩

theorem profileSpec_map_y (gd : Waypoint → Waypoint → ℚ) (dTh eTh : ℚ)
    (cands : List Waypoint) : ∀ (p : Waypoint) (d : ℚ),
    (profileSpec gd dTh eTh p d cands).map Coordinate.y =
      cands.filterMap Waypoint.elevation := by
  induction cands with
  | nil =>
      intro p d
      simp [profileSpec]
  | cons c cs ih =>
      intro p d
      rw [profileSpec]
      rcases hc : c.elevation with _ | e <;>
        cases hk : keepWaypoint gd dTh eTh p c <;>
        simp [hc, hk, ih, List.filterMap_cons]

theorem segFold_shape_spec (gd : Waypoint → Waypoint → ℚ) (dTh eTh : ℚ)
    (cands : List Waypoint) (st : SegState) :
    (List.foldl (waypointStep gd dTh eTh) st cands).shape =
      st.shape ++ profileSpec gd dTh eTh st.prev st.info.distance cands := by
  induction cands generalizing st with
  | nil => simp [profileSpec]
  | cons c cs ih =>
      simp only [List.foldl_cons]
      rw [ih]
      cases hk : keepWaypoint gd dTh eTh st.prev c
      · rw [waypointStep_of_drop gd dTh eTh st c hk]
        rw [profileSpec]
        rcases hc : c.elevation with _ | e <;> simp [hc, hk, List.append_assoc]
      · obtain ⟨hprev, hdist⟩ := waypointStep_of_keep gd dTh eTh st c hk
        rw [hprev, hdist, waypointStep_shape]
        rw [profileSpec]
        rcases hc : c.elevation with _ | e <;> simp [hc, hk, List.append_assoc]

theorem segFold_nonneg (gd : Waypoint → Waypoint → ℚ) (dTh eTh : ℚ)
    (cands : List Waypoint) (st : SegState)
    (hu : 0 ≤ st.info.uphill) (hd : 0 ≤ st.info.downhill) :
    0 ≤ (List.foldl (waypointStep gd dTh eTh) st cands).info.uphill ∧
      0 ≤ (List.foldl (waypointStep gd dTh eTh) st cands).info.downhill := by
  induction cands generalizing st with
  | nil => exact ⟨hu, hd⟩
  | cons c cs ih =>
      simp only [List.foldl_cons]
      obtain ⟨h1, h2⟩ := waypointStep_nonneg gd dTh eTh st c hu hd
      exact ih (waypointStep gd dTh eTh st c) h1 h2

/-! Lemmas about processSegment and the segment and track loops. -/

theorem segmentHead_datetime (orc : Nat → GeoResp) (st : RunState)
    (p0 : Waypoint) :
    (segmentHead orc st p0).1.datetime = st.info.datetime.or p0.time := by
  unfold segmentHead
  rcases hdt : st.info.datetime with _ | d <;> simp [hdt] <;> split <;> simp_all

theorem segmentHead_updown (orc : Nat → GeoResp) (st : RunState)
    (p0 : Waypoint) :
    (segmentHead orc st p0).1.uphill = st.info.uphill ∧
      (segmentHead orc st p0).1.downhill = st.info.downhill ∧
      (segmentHead orc st p0).1.distance = st.info.distance := by
  unfold segmentHead
  rcases hdt : st.info.datetime with _ | d <;>
    rcases hloc : st.info.location with _ | s <;> simp [hdt, hloc]

theorem segmentHead_attempts (orc : Nat → GeoResp) (st : RunState)
    (p0 : Waypoint) :
    (segmentHead orc st p0).2 =
      if st.info.location.isNone then st.attempts + 1 else st.attempts := by
  unfold segmentHead
  rcases hdt : st.info.datetime with _ | d <;>
    rcases hloc : st.info.location with _ | s <;> simp [hdt, hloc]

theorem segmentHead_location_some (orc : Nat → GeoResp) (st : RunState)
    (p0 : Waypoint) (s : List Char) (hs : st.info.location = some s) :
    (segmentHead orc st p0).1.location = some s := by
  unfold segmentHead
  rcases hdt : st.info.datetime with _ | d <;> simp [hdt, hs]

theorem processSegment_eq_none_iff (gd : Waypoint → Waypoint → ℚ) (dTh eTh : ℚ)
    (orc : Nat → GeoResp) (st : RunState) (seg : Segment) :
    processSegment gd dTh eTh orc st seg = none ↔ seg.points = [] := by
  rcases hp : seg.points with _ | ⟨p0, rest⟩ <;> simp [processSegment, hp]

theorem processSegment_attempts (gd : Waypoint → Waypoint → ℚ) (dTh eTh : ℚ)
    (orc : Nat → GeoResp) (st : RunState) (seg : Segment) (st' : RunState)
    (h : processSegment gd dTh eTh orc st seg = some st') :
    (st'.attempts = if st.info.location.isNone then st.attempts + 1
      else st.attempts) ∧
      (∀ s, st.info.location = some s → st'.info.location = some s) := by
  rcases hp : seg.points with _ | ⟨p0, rest⟩
  · simp [processSegment, hp] at h
  · rw [processSegment, hp] at h
    simp only [Option.some.injEq] at h
    subst h
    dsimp only
    constructor
    · exact segmentHead_attempts orc st p0
    · intro s hs
      rw [(segFold_meta gd dTh eTh rest _).2.2.2]
      exact segmentHead_location_some orc st p0 s hs

theorem processSegment_datetime (gd : Waypoint → Waypoint → ℚ) (dTh eTh : ℚ)
    (orc : Nat → GeoResp) (st : RunState) (seg : Segment) (st' : RunState)
    (h : processSegment gd dTh eTh orc st seg = some st') :
    st'.info.datetime = st.info.datetime.or (headTime seg) := by
  rcases hp : seg.points with _ | ⟨p0, rest⟩
  · simp [processSegment, hp] at h
  · rw [processSegment, hp] at h
    simp only [Option.some.injEq] at h
    subst h
    dsimp only
    rw [(segFold_meta gd dTh eTh rest _).2.2.1]
    rw [segmentHead_datetime orc st p0]
    simp [headTime, hp]

theorem processSegment_nonneg (gd : Waypoint → Waypoint → ℚ) (dTh eTh : ℚ)
    (orc : Nat → GeoResp) (st : RunState) (seg : Segment) (st' : RunState)
    (h : processSegment gd dTh eTh orc st seg = some st')
    (hu : 0 ≤ st.info.uphill) (hd : 0 ≤ st.info.downhill) :
    0 ≤ st'.info.uphill ∧ 0 ≤ st'.info.downhill := by
  rcases hp : seg.points with _ | ⟨p0, rest⟩
  · simp [processSegment, hp] at h
  · rw [processSegment, hp] at h
    simp only [Option.some.injEq] at h
    subst h
    dsimp only
    apply segFold_nonneg
    · rw [(segmentHead_updown orc st p0).1]
      exact hu
    · rw [(segmentHead_updown orc st p0).2.1]
      exact hd

theorem processSegment_shape (gd : Waypoint → Waypoint → ℚ) (dTh eTh : ℚ)
    (orc : Nat → GeoResp) (st : RunState) (p0 : Waypoint) (rest : List Waypoint)
    (st' : RunState)
    (h : processSegment gd dTh eTh orc st ⟨p0 :: rest⟩ = some st') :
    st'.shape = st.shape ++ profileSpec gd dTh eTh p0 st.info.distance rest := by
  rw [processSegment] at h
  simp only [Option.some.injEq] at h
  subst h
  dsimp only
  rw [segFold_shape_spec]
  dsimp only
  rw [(segmentHead_updown orc st p0).2.2]

theorem processSegments_none_iff (gd : Waypoint → Waypoint → ℚ) (dTh eTh : ℚ)
    (orc : Nat → GeoResp) (st : RunState) (segs : List Segment) :
    processSegments gd dTh eTh orc st segs = none ↔
      ∃ s ∈ segs, s.points = [] := by
  induction segs generalizing st with
  | nil => simp [processSegments]
  | cons s rest ih =>
      rw [processSegments]
      rcases hps : processSegment gd dTh eTh orc st s with _ | st2
      · have hempty : s.points = [] :=
          (processSegment_eq_none_iff gd dTh eTh orc st s).mp hps
        simp [hempty]
      · have hne : ¬s.points = [] := by
          intro he
          rw [(processSegment_eq_none_iff gd dTh eTh orc st s).mpr he] at hps
          cases hps
        dsimp only
        rw [ih st2]
        simp [hne]

theorem processSegments_datetime (gd : Waypoint → Waypoint → ℚ) (dTh eTh : ℚ)
    (orc : Nat → GeoResp) (st : RunState) (segs : List Segment) (st' : RunState)
    (h : processSegments gd dTh eTh orc st segs = some st') :
    st'.info.datetime = st.info.datetime.or (firstSegmentTime segs) := by
  induction segs generalizing st with
  | nil =>
      rw [processSegments] at h
      simp only [Option.some.injEq] at h
      subst h
      simp [firstSegmentTime]
  | cons s rest ih =>
      rw [processSegments] at h
      rcases hps : processSegment gd dTh eTh orc st s with _ | st2
      · rw [hps] at h
        cases h
      · rw [hps] at h
        have h1 := processSegment_datetime gd dTh eTh orc st s st2 hps
        have h2 := ih st2 h
        rw [h2, h1, firstSegmentTime]
        rcases st.info.datetime with _ | d <;> rcases headTime s with _ | t <;> simp

theorem processSegments_nonneg (gd : Waypoint → Waypoint → ℚ) (dTh eTh : ℚ)
    (orc : Nat → GeoResp) (st : RunState) (segs : List Segment) (st' : RunState)
    (h : processSegments gd dTh eTh orc st segs = some st')
    (hu : 0 ≤ st.info.uphill) (hd : 0 ≤ st.info.downhill) :
    0 ≤ st'.info.uphill ∧ 0 ≤ st'.info.downhill := by
  induction segs generalizing st with
  | nil =>
      rw [processSegments] at h
      simp only [Option.some.injEq] at h
      subst h
      exact ⟨hu, hd⟩
  | cons s rest ih =>
      rw [processSegments] at h
      rcases hps : processSegment gd dTh eTh orc st s with _ | st2
      · rw [hps] at h
        cases h
      · rw [hps] at h
        obtain ⟨h1, h2⟩ := processSegment_nonneg gd dTh eTh orc st s st2 hps hu hd
        exact ih st2 h h1 h2

theorem processTracks_none_iff (gd : Waypoint → Waypoint → ℚ) (dTh eTh : ℚ)
    (orc : Nat → GeoResp) (st : RunState) (ts : List Track) :
    processTracks gd dTh eTh orc st ts = none ↔
      ∃ t ∈ ts, ∃ s ∈ t.segments, s.points = [] := by
  induction ts generalizing st with
  | nil => simp [processTracks]
  | cons t rest ih =>
      rw [processTracks]
      rcases hps : processSegments gd dTh eTh orc st t.segments with _ | st2
      · have hempty := (processSegments_none_iff gd dTh eTh orc st t.segments).mp hps
        obtain ⟨s, hs, hsp⟩ := hempty
        dsimp only
        constructor
        · intro _
          exact ⟨t, List.mem_cons_self _ _, s, hs, hsp⟩
        · intro _
          rfl
      · have hne : ¬∃ s ∈ t.segments, s.points = [] := by
          intro he
          rw [(processSegments_none_iff gd dTh eTh orc st t.segments).mpr he] at hps
          cases hps
        dsimp only
        rw [ih st2]
        simp [hne]

theorem processTracks_nonneg (gd : Waypoint → Waypoint → ℚ) (dTh eTh : ℚ)
    (orc : Nat → GeoResp) (st : RunState) (ts : List Track) (st' : RunState)
    (h : processTracks gd dTh eTh orc st ts = some st')
    (hu : 0 ≤ st.info.uphill) (hd : 0 ≤ st.info.downhill) :
    0 ≤ st'.info.uphill ∧ 0 ≤ st'.info.downhill := by
  induction ts generalizing st with
  | nil =>
      rw [processTracks] at h
      simp only [Option.some.injEq] at h
      subst h
      exact ⟨hu, hd⟩
  | cons t rest ih =>
      rw [processTracks] at h
      rcases hps : processSegments gd dTh eTh orc st t.segments with _ | st2
      · rw [hps] at h
        cases h
      · rw [hps] at h
        obtain ⟨h1, h2⟩ := processSegments_nonneg gd dTh eTh orc st t.segments st2 hps hu hd
        exact ih st2 h h1 h2

theorem initInfo_updown (g : Gpx) (t0 : Track) :
    (initInfo g t0).uphill = 0 ∧ (initInfo g t0).downhill = 0 := by
  unfold initInfo
  rcases g.metadata with _ | m <;> dsimp only <;> split <;> split <;>
    exact ⟨rfl, rfl⟩

/-! Lemmas about the modelled Profile Simplifier. -/

theorem vwSimplify_of_short (eps : ℚ) (l : List Coordinate) (h : l.length < 3) :
    vwSimplify eps l = l := by
  rw [vwSimplify, if_pos h]

theorem vwSimplify_of_none (eps : ℚ) (l : List Coordinate) (h3 : ¬l.length < 3)
    (h : argminArea (interiorAreas l) = none) : vwSimplify eps l = l := by
  rw [vwSimplify, if_neg h3]
  split
  · rfl
  · rename_i ia2 hia2
    rw [hia2] at h
    cases h

theorem vwSimplify_of_big (eps : ℚ) (l : List Coordinate) (ia : Nat × ℚ)
    (h3 : ¬l.length < 3) (hia : argminArea (interiorAreas l) = some ia)
    (h : eps < ia.2) : vwSimplify eps l = l := by
  rw [vwSimplify, if_neg h3]
  split
  · rfl
  · rename_i ia2 hia2
    rw [hia2] at hia
    cases hia
    rw [if_pos h]

theorem vwSimplify_of_small (eps : ℚ) (l : List Coordinate) (ia : Nat × ℚ)
    (h3 : ¬l.length < 3) (hia : argminArea (interiorAreas l) = some ia)
    (h : ¬eps < ia.2) : vwSimplify eps l = vwSimplify eps (l.eraseIdx ia.1) := by
  rw [vwSimplify, if_neg h3]
  split
  · rename_i hnone
    rw [hnone] at hia
    cases hia
  · rename_i ia2 hia2
    rw [hia2] at hia
    cases hia
    rw [if_neg h]

theorem vwSimplify_length_le (eps : ℚ) (l : List Coordinate) :
    (vwSimplify eps l).length ≤ l.length := by
  induction l using vwSimplify.induct eps with
  | case1 l h3 => rw [vwSimplify_of_short eps l h3]
  | case2 l h3 hnone => rw [vwSimplify_of_none eps l h3 hnone]
  | case3 l h3 ia hia hlt => rw [vwSimplify_of_big eps l ia h3 hia hlt]
  | case4 l h3 ia hia hge ih =>
      rw [vwSimplify_of_small eps l ia h3 hia hge]
      exact le_trans ih (List.length_eraseIdx_le _ _)

theorem head?_eraseIdx_pos {α : Type} (l : List α) (i : Nat) (h : 1 ≤ i) :
    (l.eraseIdx i).head? = l.head? := by
  cases l with
  | nil => simp
  | cons a t =>
      rcases i with _ | j
      · omega
      · simp [List.eraseIdx_cons_succ]

theorem getLast?_eraseIdx (l : List Coordinate) (i : Nat) (h : i + 1 < l.length) :
    (l.eraseIdx i).getLast? = l.getLast? := by
  induction l generalizing i with
  | nil => simp at h
  | cons a t ih =>
      rcases i with _ | j
      · rw [List.eraseIdx_cons_zero]
        rcases t with _ | ⟨b, t2⟩
        · simp at h
        · rw [List.getLast?_cons_cons]
      · rw [List.eraseIdx_cons_succ, List.getLast?_cons, List.getLast?_cons,
          ih j (by simp at h; omega)]

theorem vwSimplify_head? (eps : ℚ) (l : List Coordinate) :
    (vwSimplify eps l).head? = l.head? := by
  induction l using vwSimplify.induct eps with
  | case1 l h3 => rw [vwSimplify_of_short eps l h3]
  | case2 l h3 hnone => rw [vwSimplify_of_none eps l h3 hnone]
  | case3 l h3 ia hia hlt => rw [vwSimplify_of_big eps l ia h3 hia hlt]
  | case4 l h3 ia hia hge ih =>
      rw [vwSimplify_of_small eps l ia h3 hia hge, ih]
      exact head?_eraseIdx_pos l ia.1
        (interiorAreas_bound (argminArea_mem hia)).1

theorem vwSimplify_getLast? (eps : ℚ) (l : List Coordinate) :
    (vwSimplify eps l).getLast? = l.getLast? := by
  induction l using vwSimplify.induct eps with
  | case1 l h3 => rw [vwSimplify_of_short eps l h3]
  | case2 l h3 hnone => rw [vwSimplify_of_none eps l h3 hnone]
  | case3 l h3 ia hia hlt => rw [vwSimplify_of_big eps l ia h3 hia hlt]
  | case4 l h3 ia hia hge ih =>
      rw [vwSimplify_of_small eps l ia h3 hia hge, ih]
      exact getLast?_eraseIdx l ia.1
        (interiorAreas_bound (argminArea_mem hia)).2

theorem vwSimplify_absorb (e1 e2 : ℚ) (hle : e1 ≤ e2) (l : List Coordinate) :
    vwSimplify e2 (vwSimplify e1 l) = vwSimplify e2 l := by
  induction l using vwSimplify.induct e1 with
  | case1 l h3 => rw [vwSimplify_of_short e1 l h3]
  | case2 l h3 hnone => rw [vwSimplify_of_none e1 l h3 hnone]
  | case3 l h3 ia hia hlt => rw [vwSimplify_of_big e1 l ia h3 hia hlt]
  | case4 l h3 ia hia hge ih =>
      have hge2 : ¬e2 < ia.2 := by
        intro hc
        exact hge (lt_of_le_of_lt hle hc)
      rw [vwSimplify_of_small e1 l ia h3 hia hge, ih,
        vwSimplify_of_small e2 l ia h3 hia hge2]

theorem vwSimplify_nil (eps : ℚ) : vwSimplify eps [] = [] := by
  rw [vwSimplify_of_short]
  simp

theorem vwSimplify_ne_nil (eps : ℚ) (l : List Coordinate) (h : l ≠ []) :
    vwSimplify eps l ≠ [] := by
  intro hc
  have h1 := vwSimplify_head? eps l
  rw [hc] at h1
  rcases l with _ | ⟨a, t⟩
  · exact h rfl
  · simp at h1

/-! Lemmas about the simplified-profile statistics loop. -/

theorem simplFold_spec (cs : List Coordinate) : ∀ (u d : ℚ) (p : Coordinate),
    (cs.foldl simplStep (u, d, p)).1 - (cs.foldl simplStep (u, d, p)).2.1 =
      u - d + ((cs.getLastD p).y - p.y) ∧
      (0 ≤ u → 0 ≤ (cs.foldl simplStep (u, d, p)).1) ∧
      (0 ≤ d → 0 ≤ (cs.foldl simplStep (u, d, p)).2.1) := by
  induction cs with
  | nil =>
      intro u d p
      refine ⟨?_, fun h => h, fun h => h⟩
      simp [List.getLastD_nil]
  | cons c cs ih =>
      intro u d p
      simp only [List.foldl_cons, List.getLastD_cons]
      have hstep : simplStep (u, d, p) c =
          if c.y - p.y ≥ 0 then (u + (c.y - p.y), d, c)
          else (u, d - (c.y - p.y), c) := rfl
      rw [hstep]
      split
      · rename_i hdiff
        obtain ⟨h1, h2, h3⟩ := ih (u + (c.y - p.y)) d c
        refine ⟨?_, ?_, h3⟩
        · rw [h1]
          ring
        · intro hu
          exact h2 (by linarith)
      · rename_i hdiff
        have hlt := lt_of_not_ge hdiff
        obtain ⟨h1, h2, h3⟩ := ih u (d - (c.y - p.y)) c
        refine ⟨?_, h2, ?_⟩
        · rw [h1]
          ring
        · intro hd
          exact h3 (by linarith)

theorem simplStats_spec (c0 : Coordinate) (cs : List Coordinate) (u d : ℚ)
    (h : simplStats (c0 :: cs) = some (u, d)) :
    0 ≤ u ∧ 0 ≤ d ∧ u - d = (cs.getLastD c0).y - c0.y := by
  unfold simplStats at h
  dsimp only at h
  simp only [Option.some.injEq, Prod.mk.injEq] at h
  obtain ⟨hu, hd⟩ := h
  obtain ⟨h1, h2, h3⟩ := simplFold_spec cs 0 0 c0
  subst hu
  subst hd
  refine ⟨h2 le_rfl, h3 le_rfl, ?_⟩
  rw [h1]
  ring

theorem simplStats_eq_none_iff (l : List Coordinate) :
    simplStats l = none ↔ l = [] := by
  rcases l with _ | ⟨c, cs⟩ <;> simp [simplStats]

/-! Lemmas about openGpx. -/

theorem openGpx_never_error (gd : Waypoint → Waypoint → ℚ) (dTh eTh eps : ℚ)
    (orc : Nat → GeoResp) (g : Gpx) (e : String) :
    openGpx gd dTh eTh eps orc g ≠ some (Except.error e) := by
  intro h
  unfold openGpx at h
  rcases ht : g.tracks with _ | ⟨t0, ts⟩ <;> rw [ht] at h
  · cases h
  · dsimp only at h
    rcases hpt : processTracks gd dTh eTh orc
        { info := initInfo g t0, shape := [], attempts := 0 } (t0 :: ts) with _ | st <;>
      rw [hpt] at h <;> dsimp only at h
    · cases h
    · rcases hss : simplStats (vwSimplify eps st.shape) with _ | pr <;> rw [hss] at h <;>
        dsimp only at h
      · cases h
      · simp at h

theorem openGpx_ok_nonneg (gd : Waypoint → Waypoint → ℚ) (dTh eTh eps : ℚ)
    (orc : Nat → GeoResp) (g : Gpx) (info : GpxInfo)
    (h : openGpx gd dTh eTh eps orc g = some (Except.ok info)) :
    0 ≤ info.uphill ∧ 0 ≤ info.downhill := by
  unfold openGpx at h
  rcases ht : g.tracks with _ | ⟨t0, ts⟩ <;> rw [ht] at h
  · cases h
  · dsimp only at h
    rcases hpt : processTracks gd dTh eTh orc
        { info := initInfo g t0, shape := [], attempts := 0 } (t0 :: ts) with _ | st <;>
      rw [hpt] at h <;> dsimp only at h
    · cases h
    · rcases hss : simplStats (vwSimplify eps st.shape) with _ | pr <;> rw [hss] at h <;>
        dsimp only at h
      · cases h
      · simp only [Option.some.injEq, Except.ok.injEq] at h
        subst h
        have h0 := initInfo_updown g t0
        exact processTracks_nonneg gd dTh eTh orc
          { info := initInfo g t0, shape := [], attempts := 0 } (t0 :: ts) st hpt
          (by simp [h0.1]) (by simp [h0.2])

theorem openGpx_none_iff (gd : Waypoint → Waypoint → ℚ) (dTh eTh eps : ℚ)
    (orc : Nat → GeoResp) (g : Gpx) :
    openGpx gd dTh eTh eps orc g = none ↔
      g.tracks = [] ∨ (∃ t ∈ g.tracks, ∃ s ∈ t.segments, s.points = []) ∨
        (∃ t0 rest st, g.tracks = t0 :: rest ∧
          processTracks gd dTh eTh orc
            { info := initInfo g t0, shape := [], attempts := 0 } g.tracks = some st ∧
          st.shape = []) := by
  unfold openGpx
  rcases ht : g.tracks with _ | ⟨t0, ts⟩
  · simp
  · dsimp only
    rcases hpt : processTracks gd dTh eTh orc
        { info := initInfo g t0, shape := [], attempts := 0 } (t0 :: ts) with _ | st
    · apply iff_of_true rfl
      refine Or.inr (Or.inl ?_)
      exact (processTracks_none_iff gd dTh eTh orc _ (t0 :: ts)).mp hpt
    · dsimp only
      by_cases hsh : st.shape = []
      · rw [hsh, vwSimplify_nil]
        refine iff_of_true ?_ (Or.inr (Or.inr ⟨t0, ts, st, rfl, hpt, hsh⟩))
        rfl
      · have hvw := vwSimplify_ne_nil eps st.shape hsh
        rcases hv : vwSimplify eps st.shape with _ | ⟨c0, cs0⟩
        · exact absurd hv hvw
        · dsimp only [simplStats]
          refine iff_of_false (by simp) ?_
          intro hdis
          rcases hdis with h1 | h2 | h3
          · cases h1
          · obtain ⟨t, hmt, s, hms, hsp⟩ := h2
            have hnone : processTracks gd dTh eTh orc
                { info := initInfo g t0, shape := [], attempts := 0 } (t0 :: ts) = none :=
              (processTracks_none_iff gd dTh eTh orc _ (t0 :: ts)).mpr ⟨t, hmt, s, hms, hsp⟩
            rw [hnone] at hpt
            cases hpt
          · obtain ⟨t0b, restb, stb, he, hpb, hshb⟩ := h3
            simp only [List.cons.injEq] at he
            obtain ⟨he1, he2⟩ := he
            subst he1
            rw [hpt] at hpb
            simp only [Option.some.injEq] at hpb
            subst hpb
            exact hsh hshb

/-! Lemmas about the location formatting. -/

theorem rustTrim_quote (mid : List Char) :
    rustTrim ('"' :: (mid ++ ['"'])) = '"' :: (mid ++ ['"']) := by
  have hq : ('"' : Char).isWhitespace = false := rfl
  have hrev : ∀ xs : List Char,
      ('"' :: (xs ++ ['"'])).reverse = '"' :: (xs.reverse ++ ['"']) := by
    intro xs
    simp
  unfold rustTrim
  rw [List.dropWhile_cons, hq]
  simp only [Bool.false_eq_true, if_false]
  rw [hrev, List.dropWhile_cons, hq]
  simp only [Bool.false_eq_true, if_false]
  rw [hrev]
  simp

theorem filter_quote_eq_self (l : List Char) (h : ('"' : Char) ∉ l) :
    l.filter (fun ch => ch ≠ '"') = l := by
  apply List.filter_eq_self.mpr
  intro a ha
  simp only [ne_eq, decide_not, Bool.not_eq_true', decide_eq_false_iff_not]
  intro hc
  subst hc
  exact h ha

theorem jsonEscapeChar_eq_self (a : Char) (h1 : a ≠ '"') (h2 : a ≠ '\\')
    (h3 : 32 ≤ a.toNat) : jsonEscapeChar a = [a] := by
  unfold jsonEscapeChar
  rw [if_neg h1, if_neg h2, if_neg (by omega), if_neg (by omega),
    if_neg (by omega), if_neg (by omega), if_neg (by omega), if_neg (by omega)]

theorem bind_escape_eq_self (l : List Char)
    (h : ∀ ch ∈ l, ch ≠ '"' ∧ ch ≠ '\\' ∧ 32 ≤ ch.toNat) :
    l.bind jsonEscapeChar = l := by
  induction l with
  | nil => rfl
  | cons a t ih =>
      obtain ⟨h1, h2, h3⟩ := h a (List.mem_cons_self a t)
      show jsonEscapeChar a ++ t.bind jsonEscapeChar = a :: t
      rw [jsonEscapeChar_eq_self a h1 h2 h3,
        ih (fun ch hch => h ch (List.mem_cons_of_mem _ hch))]
      rfl

theorem formatLocation_eq (p : GeoProps)
    (h1 : ∀ ch ∈ p.name.getD [], ch ≠ '"' ∧ ch ≠ '\\' ∧ 32 ≤ ch.toNat)
    (h2 : ∀ ch ∈ p.street.getD [], ch ≠ '"' ∧ ch ≠ '\\' ∧ 32 ≤ ch.toNat)
    (h3 : ∀ ch ∈ p.city.getD [], ch ≠ '"' ∧ ch ≠ '\\' ∧ 32 ≤ ch.toNat)
    (h4 : ∀ ch ∈ p.country.getD [], ch ≠ '"' ∧ ch ≠ '\\' ∧ 32 ≤ ch.toNat) :
    formatLocation p = p.name.getD [] ++ [',', ' '] ++ p.street.getD [] ++
      [',', ' '] ++ p.city.getD [] ++ [',', ' '] ++ p.country.getD [] := by
  have hq1 : ('"' : Char) ∉ p.name.getD [] := fun hm => ((h1 _ hm).1) rfl
  have hq2 : ('"' : Char) ∉ p.street.getD [] := fun hm => ((h2 _ hm).1) rfl
  have hq3 : ('"' : Char) ∉ p.city.getD [] := fun hm => ((h3 _ hm).1) rfl
  have hq4 : ('"' : Char) ∉ p.country.getD [] := fun hm => ((h4 _ hm).1) rfl
  have hcomma : (", ".toList : List Char) = [',', ' '] := rfl
  unfold formatLocation jsonShow
  rw [hcomma]
  rw [bind_escape_eq_self _ h1, bind_escape_eq_self _ h2,
    bind_escape_eq_self _ h3, bind_escape_eq_self _ h4]
  have hshape : ('"' :: p.name.getD []) ++ ['"'] ++ [',', ' '] ++
      (('"' :: p.street.getD []) ++ ['"']) ++ [',', ' '] ++
      (('"' :: p.city.getD []) ++ ['"']) ++ [',', ' '] ++
      (('"' :: p.country.getD []) ++ ['"']) =
      '"' :: ((p.name.getD [] ++ ['"', ',', ' ', '"'] ++ p.street.getD [] ++
        ['"', ',', ' ', '"'] ++ p.city.getD [] ++ ['"', ',', ' ', '"'] ++
        p.country.getD []) ++ ['"']) := by
    simp [List.append_assoc]
  rw [hshape, rustTrim_quote]
  rw [List.filter_cons]
  have hqd : (decide (('"' : Char) ≠ '"')) = false := by simp
  rw [hqd]
  simp only [Bool.false_eq_true, if_false]
  simp only [List.filter_append, filter_quote_eq_self _ hq1, filter_quote_eq_self _ hq2,
    filter_quote_eq_self _ hq3, filter_quote_eq_self _ hq4]
  have hsep : (['"', ',', ' ', '"'] : List Char).filter (fun ch => ch ≠ '"') =
      [',', ' '] := rfl
  have hqq : (['"'] : List Char).filter (fun ch => ch ≠ '"') = [] := rfl
  rw [hsep, hqq]
  simp [List.append_assoc]

/-- Scenario B of the spec: a profile whose single interior triangle has
area 50 collapses to its endpoints when epsilon exceeds that area. -/
theorem vwSimplify_scenario_b :
    vwSimplify 60 [⟨0, 0⟩, ⟨10, 5⟩, ⟨20, 0⟩] = [⟨0, 0⟩, ⟨20, 0⟩] := by
  with_unfolding_all rfl

/-- Scenario C of the spec: with epsilon 10 below the triangle area 500
all three points are retained unchanged. -/
theorem vwSimplify_scenario_c :
    vwSimplify 10 [⟨0, 0⟩, ⟨10, 50⟩, ⟨20, 0⟩] = [⟨0, 0⟩, ⟨10, 50⟩, ⟨20, 0⟩] := by
  with_unfolding_all rfl

/-! The claims. -/

/-- C1: on a structurally valid input in which no waypoint carries an
elevation, the run state after the accumulator has an empty profile, zero
uphill, zero downhill and accumulated distance from positions alone, but
open does not complete: it panics (none) at the unwrap of the first
element of the empty simplified profile instead of returning a summary. -/
theorem c1_empty_elevation_panics :
    processTracks (fun a b => (b.lon - a.lon) * 2) 3 3 (fun _ => none)
        { info := GpxInfo.new, shape := [], attempts := 0 }
        [⟨none, none, [⟨[⟨0, 0, none, none⟩, ⟨0, 2, none, none⟩]⟩]⟩] =
      some { info := { GpxInfo.new with distance := 4 }, shape := [], attempts := 1 } ∧
    openGpx (fun a b => (b.lon - a.lon) * 2) 3 3 1 (fun _ => none)
        ⟨none, [⟨none, none, [⟨[⟨0, 0, none, none⟩, ⟨0, 2, none, none⟩]⟩]⟩]⟩ =
      none := by
  constructor
  · with_unfolding_all rfl
  · with_unfolding_all rfl

/-- C2 counterexample: a candidate whose elevation delta is negative with
absolute value far above the threshold, at negligible distance, is
dropped by the code (state unchanged, previous kept), not kept as the
claim states. -/
theorem c2_negative_delta_dropped :
    (3 : ℚ) < |(50 : ℚ) - 100| ∧
    (1 : ℚ) ≤ 3 ∧
    waypointStep (fun _ _ => 1) 3 3
        { info := GpxInfo.new, shape := [], prev := ⟨0, 0, some 100, none⟩ }
        ⟨0, 1, some 50, none⟩ =
      { info := GpxInfo.new, shape := [⟨0, 50⟩], prev := ⟨0, 0, some 100, none⟩ } := by
  refine ⟨by norm_num, by norm_num, ?_⟩
  with_unfolding_all rfl

/-- C2 (amended): a candidate is kept, becomes the new previous and grows
the distance exactly when the geodesic distance exceeds the distance
threshold or both elevations are known and the signed delta current minus
previous exceeds the elevation threshold; otherwise the state except the
unconditional profile push is unchanged. The absolute value is never
taken, so a negative delta never triggers the elevation condition. -/
theorem c2_filter_keep_characterization (gd : Waypoint → Waypoint → ℚ)
    (dTh eTh : ℚ) (i : GpxInfo) (sh : List Coordinate) (p c : Waypoint) :
    (dTh < gd p c ∨ (∃ pe ce, p.elevation = some pe ∧ c.elevation = some ce ∧
        eTh < ce - pe) →
      (waypointStep gd dTh eTh ⟨i, sh, p⟩ c).prev = c ∧
        (waypointStep gd dTh eTh ⟨i, sh, p⟩ c).info.distance =
          i.distance + gd p c) ∧
    (¬(dTh < gd p c ∨ (∃ pe ce, p.elevation = some pe ∧ c.elevation = some ce ∧
        eTh < ce - pe)) →
      waypointStep gd dTh eTh ⟨i, sh, p⟩ c =
        { info := i,
          shape := match c.elevation with
            | some e => sh ++ [⟨i.distance, e⟩]
            | none => sh,
          prev := p }) := by
  constructor
  · intro h
    have hk : keepWaypoint gd dTh eTh p c = true :=
      (keepWaypoint_iff gd dTh eTh p c).mpr h
    exact waypointStep_of_keep gd dTh eTh ⟨i, sh, p⟩ c hk
  · intro h
    have hk : keepWaypoint gd dTh eTh p c = false := by
      rcases hb : keepWaypoint gd dTh eTh p c
      · rfl
      · exact absurd ((keepWaypoint_iff gd dTh eTh p c).mp hb) h
    exact waypointStep_of_drop gd dTh eTh ⟨i, sh, p⟩ c hk

/-- Witness for C2: both directions at concrete inputs. -/
theorem c2_filter_keep_characterization_witness :
    ((waypointStep (fun _ _ => 10) 3 3
        { info := GpxInfo.new, shape := [], prev := ⟨0, 0, none, none⟩ }
        ⟨0, 1, none, none⟩).prev = ⟨0, 1, none, none⟩ ∧
      (waypointStep (fun _ _ => 10) 3 3
        { info := GpxInfo.new, shape := [], prev := ⟨0, 0, none, none⟩ }
        ⟨0, 1, none, none⟩).info.distance = GpxInfo.new.distance + 10) ∧
    waypointStep (fun _ _ => 1) 3 3
        { info := GpxInfo.new, shape := [], prev := ⟨0, 0, none, none⟩ }
        ⟨0, 1, none, none⟩ =
      { info := GpxInfo.new, shape := [], prev := ⟨0, 0, none, none⟩ } := by
  constructor
  · exact (c2_filter_keep_characterization (fun _ _ => 10) 3 3 GpxInfo.new []
      ⟨0, 0, none, none⟩ ⟨0, 1, none, none⟩).1 (Or.inl (by norm_num))
  · exact (c2_filter_keep_characterization (fun _ _ => 1) 3 3 GpxInfo.new []
      ⟨0, 0, none, none⟩ ⟨0, 1, none, none⟩).2 (by
        rintro (hlt | ⟨pe, ce, hpe, hce, h⟩)
        · norm_num at hlt
        · simp at hpe)

/-- C3 counterexample: a candidate dropped by the filter (previous stays,
totals unchanged) still contributes its sample to the profile: the
profile holds the dropped elevation 11, not the kept-waypoint profile
the claim describes. -/
theorem c3_dropped_waypoint_sampled :
    List.foldl (waypointStep (fun a b => b.lon - a.lon) 3 3)
        { info := GpxInfo.new, shape := [], prev := ⟨0, 0, some 10, none⟩ }
        [⟨0, 1, some 11, none⟩] =
      { info := GpxInfo.new, shape := [⟨0, 11⟩], prev := ⟨0, 0, some 10, none⟩ } ∧
    ([⟨0, 11⟩] : List Coordinate) ≠ [⟨0, 10⟩] := by
  constructor
  · with_unfolding_all rfl
  · with_unfolding_all decide

/-- C3 (amended): the profile a segment scan appends is exactly
profileSpec: every candidate waypoint (all but the segment-initial one)
with a known elevation contributes one sample at (cumulative distance so
far, its elevation), pushed before the threshold decision and hence
whether the filter keeps or drops it, with the distance advancing only on
kept candidates; a candidate without elevation and the segment-initial
waypoint contribute none, and the samples list one elevation per
elevation-carrying candidate, in order. -/
theorem c3_profile_samples_all_candidates (gd : Waypoint → Waypoint → ℚ)
    (dTh eTh : ℚ) (orc : Nat → GeoResp) (st : RunState) (p0 : Waypoint)
    (rest : List Waypoint) (st' : RunState)
    (h : processSegment gd dTh eTh orc st ⟨p0 :: rest⟩ = some st') :
    st'.shape = st.shape ++ profileSpec gd dTh eTh p0 st.info.distance rest ∧
      (profileSpec gd dTh eTh p0 st.info.distance rest).map Coordinate.y =
        rest.filterMap Waypoint.elevation :=
  ⟨processSegment_shape gd dTh eTh orc st p0 rest st' h,
    profileSpec_map_y gd dTh eTh rest p0 st.info.distance⟩

/-- Witness for C3 at the dropped-waypoint input. -/
theorem c3_profile_samples_all_candidates_witness :
    ({ info := GpxInfo.new, shape := [⟨0, 11⟩], attempts := 1 } :
        RunState).shape =
      ([] : List Coordinate) ++ profileSpec (fun a b => b.lon - a.lon) 3 3
        ⟨0, 0, some 10, none⟩
        ({ info := GpxInfo.new, shape := [], attempts := 0 } :
          RunState).info.distance [⟨0, 1, some 11, none⟩] ∧
      (profileSpec (fun a b => b.lon - a.lon) 3 3 ⟨0, 0, some 10, none⟩
        ({ info := GpxInfo.new, shape := [], attempts := 0 } :
          RunState).info.distance [⟨0, 1, some 11, none⟩]).map Coordinate.y =
        [(⟨0, 1, some 11, none⟩ : Waypoint)].filterMap Waypoint.elevation := by
  refine c3_profile_samples_all_candidates (fun a b => b.lon - a.lon) 3 3
    (fun _ => none) { info := GpxInfo.new, shape := [], attempts := 0 }
    ⟨0, 0, some 10, none⟩ [⟨0, 1, some 11, none⟩] _ ?_
  with_unfolding_all rfl

/-- C4 counterexample: with two segments and an always-failing geocoding
collaborator, the run makes two lookup attempts, not at most one. -/
theorem c4_two_segments_two_attempts :
    processTracks (fun a b => (b.lon - a.lon) * 2) 3 3 (fun _ => none)
        { info := GpxInfo.new, shape := [], attempts := 0 }
        [⟨none, none, [⟨[⟨0, 0, none, none⟩]⟩, ⟨[⟨0, 0, none, none⟩]⟩]⟩] =
      some { info := GpxInfo.new, shape := [], attempts := 2 } ∧
    (1 : Nat) < 2 := by
  constructor
  · with_unfolding_all rfl
  · decide

/-- C4 (amended): a lookup is attempted at the first waypoint of every
segment whose processing starts with location unset, so a failed attempt
is retried at the next segment; once the location is set no further
attempt is made and the location survives the segment unchanged. -/
theorem c4_lookup_retried_per_segment (gd : Waypoint → Waypoint → ℚ)
    (dTh eTh : ℚ) (orc : Nat → GeoResp) (st : RunState) (seg : Segment)
    (st' : RunState) (h : processSegment gd dTh eTh orc st seg = some st') :
    (st'.attempts = if st.info.location.isNone then st.attempts + 1
      else st.attempts) ∧
    (∀ s, st.info.location = some s →
      st'.info.location = some s ∧ st'.attempts = st.attempts) := by
  obtain ⟨h1, h2⟩ := processSegment_attempts gd dTh eTh orc st seg st' h
  refine ⟨h1, fun s hs => ⟨h2 s hs, ?_⟩⟩
  rw [h1, hs]
  rfl

/-- Witness for C4 at a one-segment input with location unset. -/
theorem c4_lookup_retried_per_segment_witness :
    ({ info := GpxInfo.new, shape := [], attempts := 1 } : RunState).attempts =
      if ({ info := GpxInfo.new, shape := [], attempts := 0 } :
          RunState).info.location.isNone
      then ({ info := GpxInfo.new, shape := [], attempts := 0 } :
          RunState).attempts + 1
      else ({ info := GpxInfo.new, shape := [], attempts := 0 } :
          RunState).attempts := by
  exact (c4_lookup_retried_per_segment (fun a b => (b.lon - a.lon) * 2) 3 3
    (fun _ => none) { info := GpxInfo.new, shape := [], attempts := 0 }
    ⟨[⟨0, 0, none, none⟩]⟩ { info := GpxInfo.new, shape := [], attempts := 1 }
    (by with_unfolding_all rfl)).1

/-- C5 counterexample: the segment-initial waypoint has a null timestamp
and the second waypoint is kept (the distance grew) with timestamp 5,
yet the summary datetime stays unset: later kept waypoints are never
consulted, contrary to the claim. -/
theorem c5_datetime_misses_kept_waypoint :
    processSegments (fun a b => (b.lon - a.lon) * 2) 3 3 (fun _ => none)
        { info := GpxInfo.new, shape := [], attempts := 0 }
        [⟨[⟨0, 0, none, none⟩, ⟨0, 2, none, some 5⟩]⟩] =
      some { info := { GpxInfo.new with distance := 4 }
             shape := []
             attempts := 1 } ∧
    ({ GpxInfo.new with distance := 4 } : GpxInfo).datetime = none ∧
    (⟨0, 2, none, some 5⟩ : Waypoint).time = some 5 := by
  refine ⟨?_, rfl, rfl⟩
  with_unfolding_all rfl

/-- C5 (amended): the start time is read only at the initial waypoint of
each segment: after processing, datetime is the incoming value or-else
the first non-null timestamp among the segment-initial waypoints; a
timestamp of a later kept waypoint is never consulted. -/
theorem c5_datetime_from_segment_heads (gd : Waypoint → Waypoint → ℚ)
    (dTh eTh : ℚ) (orc : Nat → GeoResp) (st : RunState) (segs : List Segment)
    (st' : RunState) (h : processSegments gd dTh eTh orc st segs = some st') :
    st'.info.datetime = st.info.datetime.or (firstSegmentTime segs) :=
  processSegments_datetime gd dTh eTh orc st segs st' h

/-- Witness for C5 at the counterexample input. -/
theorem c5_datetime_from_segment_heads_witness :
    ({ info := { GpxInfo.new with distance := 4 }, shape := [], attempts := 1 } :
        RunState).info.datetime =
      ({ info := GpxInfo.new, shape := [], attempts := 0 } :
        RunState).info.datetime.or
        (firstSegmentTime [⟨[⟨0, 0, none, none⟩, ⟨0, 2, none, some 5⟩]⟩]) := by
  exact c5_datetime_from_segment_heads (fun a b => (b.lon - a.lon) * 2) 3 3
    (fun _ => none) { info := GpxInfo.new, shape := [], attempts := 0 }
    [⟨[⟨0, 0, none, none⟩, ⟨0, 2, none, some 5⟩]⟩]
    { info := { GpxInfo.new with distance := 4 }, shape := [], attempts := 1 }
    (by with_unfolding_all rfl)

/-- C6 counterexample: a dropped waypoint leaves its sample in the raw
profile, so the raw uphill minus downhill (0) differs from the net
elevation change of the raw profile (0 minus 2): the claimed identity
fails for the raw profile. -/
theorem c6_raw_totals_not_net_change :
    List.foldl (waypointStep (fun a b => (b.lon - a.lon) * 2) 3 3)
        { info := GpxInfo.new, shape := [], prev := ⟨0, 0, some 0, none⟩ }
        [⟨0, 1, some 2, none⟩, ⟨0, 2, some 0, none⟩] =
      { info := { GpxInfo.new with distance := 4 }, shape := [⟨0, 2⟩, ⟨0, 0⟩],
        prev := ⟨0, 2, some 0, none⟩ } ∧
    ([⟨0, 2⟩, ⟨0, 0⟩] : List Coordinate).head? = some ⟨0, 2⟩ ∧
    ([⟨0, 2⟩, ⟨0, 0⟩] : List Coordinate).getLast? = some ⟨0, 0⟩ ∧
    ¬({ GpxInfo.new with distance := 4 } : GpxInfo).uphill -
        ({ GpxInfo.new with distance := 4 } : GpxInfo).downhill =
      (0 : ℚ) - 2 := by
  refine ⟨?_, rfl, rfl, ?_⟩
  · with_unfolding_all rfl
  · show ¬(0 : ℚ) - 0 = (0 : ℚ) - 2
    norm_num

/-- C6 (amended): uphill and downhill are nonnegative on every completed
run, and the recomputation over a profile satisfies up minus down equals
last sample elevation minus first sample elevation; for the raw totals
against the raw profile the identity fails (see the counterexample). -/
theorem c6_updown_nonneg_and_simplified_telescope :
    (∀ (gd : Waypoint → Waypoint → ℚ) (dTh eTh eps : ℚ) (orc : Nat → GeoResp)
        (g : Gpx) (info : GpxInfo),
      openGpx gd dTh eTh eps orc g = some (Except.ok info) →
        0 ≤ info.uphill ∧ 0 ≤ info.downhill) ∧
    (∀ (c0 : Coordinate) (cs : List Coordinate) (u d : ℚ),
      simplStats (c0 :: cs) = some (u, d) →
        0 ≤ u ∧ 0 ≤ d ∧ u - d = (cs.getLastD c0).y - c0.y) :=
  ⟨fun gd dTh eTh eps orc g info h => openGpx_ok_nonneg gd dTh eTh eps orc g info h,
    fun c0 cs u d h => simplStats_spec c0 cs u d h⟩

/-- Witness for C6: a completed run and a one-sample profile. -/
theorem c6_updown_nonneg_and_simplified_telescope_witness :
    (0 ≤ ({ GpxInfo.new with distance := 4 } : GpxInfo).uphill ∧
      0 ≤ ({ GpxInfo.new with distance := 4 } : GpxInfo).downhill) ∧
    (0 ≤ (0 : ℚ) ∧ 0 ≤ (0 : ℚ) ∧ (0 : ℚ) - 0 =
      (([] : List Coordinate).getLastD ⟨5, 7⟩).y - (⟨5, 7⟩ : Coordinate).y) := by
  constructor
  · exact c6_updown_nonneg_and_simplified_telescope.1
      (fun a b => (b.lon - a.lon) * 2) 3 3 1 (fun _ => none)
      ⟨none, [⟨none, none, [⟨[⟨0, 0, some 1, none⟩, ⟨0, 2, some 1, none⟩]⟩]⟩]⟩
      { GpxInfo.new with distance := 4 } (by with_unfolding_all rfl)
  · exact c6_updown_nonneg_and_simplified_telescope.2 ⟨5, 7⟩ [] 0 0 rfl

/-- C7: for a non-empty profile the modelled simplifier never increases
the point count and keeps the first and the last sample in place. -/
theorem c7_simplify_length_and_endpoints (eps : ℚ) (l : List Coordinate)
    (h : l ≠ []) :
    (vwSimplify eps l).length ≤ l.length ∧
      (vwSimplify eps l).head? = l.head? ∧
      (vwSimplify eps l).getLast? = l.getLast? :=
  ⟨vwSimplify_length_le eps l, vwSimplify_head? eps l, vwSimplify_getLast? eps l⟩

/-- Witness for C7 at a one-sample profile. -/
theorem c7_simplify_length_and_endpoints_witness :
    ((([⟨0, 0⟩] : List Coordinate)) ≠ []) ∧
    ((vwSimplify 1 [⟨0, 0⟩]).length ≤ ([⟨0, 0⟩] : List Coordinate).length ∧
      (vwSimplify 1 [⟨0, 0⟩]).head? = ([⟨0, 0⟩] : List Coordinate).head? ∧
      (vwSimplify 1 [⟨0, 0⟩]).getLast? = ([⟨0, 0⟩] : List Coordinate).getLast?) :=
  ⟨by simp, c7_simplify_length_and_endpoints 1 [⟨0, 0⟩] (by simp)⟩

/-- C8: increasing epsilon never increases the number of retained points
of the modelled simplifier. -/
theorem c8_epsilon_monotone (l : List Coordinate) (e1 e2 : ℚ) (h : e1 ≤ e2) :
    (vwSimplify e2 l).length ≤ (vwSimplify e1 l).length := by
  rw [← vwSimplify_absorb e1 e2 h l]
  exact vwSimplify_length_le e2 (vwSimplify e1 l)

/-- Witness for C8. -/
theorem c8_epsilon_monotone_witness :
    (1 : ℚ) ≤ 2 ∧
    (vwSimplify 2 [⟨0, 0⟩, ⟨1, 5⟩, ⟨2, 0⟩]).length ≤
      (vwSimplify 1 [⟨0, 0⟩, ⟨1, 5⟩, ⟨2, 0⟩]).length :=
  ⟨by norm_num, c8_epsilon_monotone [⟨0, 0⟩, ⟨1, 5⟩, ⟨2, 0⟩] 1 2 (by norm_num)⟩

/-- C9 counterexample: with name and city absent, the code produces
", S, , CH": empty comma-separated slots remain, and the result differs
from the claimed empty-field-trimming join "S, CH". -/
theorem c9_absent_field_leaves_empty_slot :
    formatLocation { name := none
                     street := some ("S".toList)
                     city := none
                     country := some ("CH".toList) } = ", S, , CH".toList ∧
    (", S, , CH".toList : List Char) ≠ "S, CH".toList := by
  constructor
  · with_unfolding_all rfl
  · decide

/-- C9 (amended): the location string always joins all four fields with
", ": an absent field is rendered as the empty JSON string and leaves an
empty comma-separated slot; each field is JSON-escaped by serde_json, the
whole string is whitespace-trimmed (a no-op here, the rendered string
starts and ends with a quote character) and every double-quote character
is deleted, so for fields whose characters need no JSON escaping (no
quote, no backslash, no control character) the result is exactly the
verbatim four-slot join. -/
theorem c9_location_four_slots (p : GeoProps)
    (h1 : ∀ ch ∈ p.name.getD [], ch ≠ '"' ∧ ch ≠ '\\' ∧ 32 ≤ ch.toNat)
    (h2 : ∀ ch ∈ p.street.getD [], ch ≠ '"' ∧ ch ≠ '\\' ∧ 32 ≤ ch.toNat)
    (h3 : ∀ ch ∈ p.city.getD [], ch ≠ '"' ∧ ch ≠ '\\' ∧ 32 ≤ ch.toNat)
    (h4 : ∀ ch ∈ p.country.getD [], ch ≠ '"' ∧ ch ≠ '\\' ∧ 32 ≤ ch.toNat) :
    formatLocation p = p.name.getD [] ++ [',', ' '] ++ p.street.getD [] ++
      [',', ' '] ++ p.city.getD [] ++ [',', ' '] ++ p.country.getD [] :=
  formatLocation_eq p h1 h2 h3 h4

/-- Witness for C9 at a record with two absent fields. -/
theorem c9_location_four_slots_witness :
    formatLocation { name := none
                     street := some ("S".toList)
                     city := none
                     country := some ("CH".toList) } =
      (none : Option (List Char)).getD [] ++ [',', ' '] ++
        (some ("S".toList)).getD [] ++ [',', ' '] ++
        (none : Option (List Char)).getD [] ++ [',', ' '] ++
        (some ("CH".toList)).getD [] := by
  exact c9_location_four_slots
    { name := none
      street := some ("S".toList)
      city := none
      country := some ("CH".toList) }
    (by decide) (by decide) (by decide) (by decide)

/-- C10: open never returns through the error branch of its Result, and
the embedded pipeline panics (none) exactly when the input has no track,
some segment has no waypoint, or the elevation profile ends up empty; the
unopenable-file and unparsable-GPX panics are unwraps upstream of the
embedded pipeline. -/
theorem c10_open_never_err_panic_conditions (gd : Waypoint → Waypoint → ℚ)
    (dTh eTh eps : ℚ) (orc : Nat → GeoResp) (g : Gpx) :
    (∀ e, openGpx gd dTh eTh eps orc g ≠ some (Except.error e)) ∧
    (openGpx gd dTh eTh eps orc g = none ↔
      g.tracks = [] ∨ (∃ t ∈ g.tracks, ∃ s ∈ t.segments, s.points = []) ∨
        (∃ t0 rest st, g.tracks = t0 :: rest ∧
          processTracks gd dTh eTh orc
            { info := initInfo g t0, shape := [], attempts := 0 } g.tracks =
            some st ∧
          st.shape = [])) :=
  ⟨fun e => openGpx_never_error gd dTh eTh eps orc g e,
    openGpx_none_iff gd dTh eTh eps orc g⟩

/-- Witness for C10: the zero-track input panics. -/
theorem c10_open_never_err_panic_conditions_witness :
    openGpx (fun a b => (b.lon - a.lon) * 2) 3 3 1 (fun _ => none)
        ⟨none, []⟩ = none := by
  exact (c10_open_never_err_panic_conditions (fun a b => (b.lon - a.lon) * 2)
    3 3 1 (fun _ => none) ⟨none, []⟩).2.mpr (Or.inl rfl)

end Spurilo
